import Mathlib

/-!
Verification development for the USDB-Syncer video-transcoder core.

The Python sources `src/codecs.py` and `src/core/audio_normalizer.py` are
embedded shallowly:

* Python `float` values are modelled as `Rat` (the program only manipulates
  finite decimal quantities; IEEE non-finite inputs enter only through JSON
  strings such as "inf"/"nan", which are modelled explicitly).
* `pathlib.Path` values are modelled as POSIX-style path strings.
* Functions that raise exceptions are modelled with `Except String`.
* The pass-1 analysis subprocess is modelled by a trace of read events
  (diagnostic line / empty read while alive / process exit), and the
  read-loop of `analyze_loudnorm_two_pass` as a function over such traces.
-/

deriving instance DecidableEq for Except

namespace Transcoder

/-- A single-quote character (U+0027), used inside ffmpeg filter strings. -/
def sq : String := String.singleton (Char.ofNat 39)

/-- Opening curly brace character. -/
def lbrace : Char := Char.ofNat 123

/-- Closing curly brace character. -/
def rbrace : Char := Char.ofNat 125

/-- Models Python `str.lower()` for the ASCII strings used here. -/
def strLower (s : String) : String := String.mk (s.toList.map Char.toLower)

/-- Models Python `str.rstrip(c)` for a single strip character. -/
def rstripChar (c : Char) (s : String) : String :=
  String.mk ((s.toList.reverse.dropWhile (fun x => x = c)).reverse)

/-- Models Python `str.lstrip(".")`. -/
def lstripDots (s : String) : String :=
  String.mk (s.toList.dropWhile (fun x => x = '.'))

/-- Models Python `str.strip()` (strip surrounding whitespace). -/
def pyStrip (s : String) : String :=
  String.mk (((s.toList.dropWhile Char.isWhitespace).reverse.dropWhile Char.isWhitespace).reverse)

/-- Models Python slicing `s[-n:]`: the last `n` characters of `s`. -/
def lastN (n : Nat) (s : String) : String :=
  String.mk ((s.toList.reverse.take n).reverse)

/-- Split a character list on a separator character (kernel-computable
analogue of `String.splitOn`). -/
def splitOnChar (c : Char) : List Char → List (List Char)
  | [] => [[]]
  | x :: r =>
    let rest := splitOnChar c r
    if x = c then [] :: rest
    else
      match rest with
      | h :: t => (x :: h) :: t
      | [] => [[x]]

/-- The final path component of a POSIX-style path string (`PurePath.name`). -/
def pathName (p : String) : String :=
  String.mk ((splitOnChar '/' p.toList).getLastD p.toList)

/-- Models `pathlib.PurePath.suffix`: the extension of the final component,
including the leading dot; empty when the name has no dot, starts with its
only dot, or ends with a dot. -/
def pathSuffix (p : String) : String :=
  let cs := (pathName p).toList
  match ((List.range cs.length).filter (fun k => cs.get? k = some '.')).getLast? with
  | some i => if 0 < i ∧ i < cs.length - 1 then String.mk (cs.drop i) else ""
  | none => ""

/-- Round `q * 1000` to the nearest integer, ties to even (the rounding
used by Python's fixed-point float formatting), computed directly on the
numerator and denominator. -/
def scaledRound1000 (q : Rat) : Int :=
  let n := q.num * 1000
  let d := (q.den : Int)
  let f := Int.fdiv n d
  let r := n - f * d
  if 2 * r < d then f
  else if d < 2 * r then f + 1
  else if f % 2 = 0 then f else f + 1

/-- Left-pad a fractional part to three digits. -/
def pad3 (n : Nat) : String :=
  if n < 10 then "00" ++ toString n
  else if n < 100 then "0" ++ toString n
  else toString n

/-- Models Python `f"{value:.3f}"` on the rationals representing the
program's float values. -/
def format3 (q : Rat) : String :=
  let n := scaledRound1000 q
  let s := if n < 0 then "-" else ""
  let a := n.natAbs
  s ++ toString (a / 1000) ++ "." ++ pad3 (a % 1000)

/-- `audio_normalizer._format_num`: fixed 3-decimal rendering, then strip
trailing zeros and a trailing decimal point.  (The Python source first guards
`math.isfinite`; `Rat` values are always finite, so the guard is vacuous in
this model.) -/
def _format_num (value : Rat) : String :=
  rstripChar '.' (rstripChar '0' (format3 value))

/-- `audio_normalizer.LoudnormTargets`. -/
structure LoudnormTargets where
  integrated_lufs : Rat
  true_peak_dbtp : Option Rat
  lra_lu : Option Rat
deriving DecidableEq, Repr

/-- JSON values, as produced by `json.loads` on the flat objects that the
ffmpeg loudnorm filter emits (strings, numbers, booleans, null). -/
inductive Jv where
  | jstr : String → Jv
  | jnum : Rat → Jv
  | jbool : Bool → Jv
  | jnull : Jv
deriving DecidableEq, Repr

/-- A parsed JSON object: association list of key/value pairs. -/
abbrev JObj := List (String × Jv)

/-- `audio_normalizer.LoudnormMeasurements`. -/
structure LoudnormMeasurements where
  measured_I : Rat
  measured_TP : Rat
  measured_LRA : Rat
  measured_thresh : Rat
  offset : Rat
  raw : JObj
deriving DecidableEq, Repr

/-- `audio_normalizer.build_loudnorm_pass2_filter`. -/
def build_loudnorm_pass2_filter (targets : LoudnormTargets) (meas : LoudnormMeasurements) : String :=
  let filter_str := "loudnorm=I=" ++ _format_num targets.integrated_lufs ++ ":"
  let filter_str := filter_str ++
    (match targets.true_peak_dbtp with
     | some tp => "TP=" ++ _format_num tp ++ ":"
     | none => "")
  let filter_str := filter_str ++
    (match targets.lra_lu with
     | some lra => "LRA=" ++ _format_num lra ++ ":"
     | none => "")
  filter_str ++
    "measured_I=" ++ _format_num meas.measured_I ++
    ":measured_TP=" ++ _format_num meas.measured_TP ++
    ":measured_LRA=" ++ _format_num meas.measured_LRA ++
    ":measured_thresh=" ++ _format_num meas.measured_thresh ++
    ":offset=" ++ _format_num meas.offset

/-- `audio_normalizer.build_replaygain_filter`. -/
def build_replaygain_filter : String := "replaygain"

/-- `audio_normalizer.inject_audio_filter`. -/
def inject_audio_filter (cmd : List String) (filter_str : String) : List String :=
  if cmd.length < 2 then cmd
  else
    let out_idx := cmd.length - 1
    cmd.take out_idx ++ ["-af", filter_str] ++ cmd.drop out_idx

/-- JSON whitespace skipping (space, tab, newline, carriage return). -/
def skipWs : List Char → List Char
  | [] => []
  | c :: r => if c = ' ' ∨ c = '\t' ∨ c = '\n' ∨ c = '\r' then skipWs r else c :: r

/-- Parse the body of a JSON string literal (after the opening quote) up to
its closing quote, decoding the simple escapes.  Returns the decoded
characters and the remaining input.  Models `json.loads` string handling for
the strings the loudnorm filter emits (no `\uXXXX` escapes). -/
def parseStrBody : List Char → Option (List Char × List Char)
  | [] => none
  | c :: r =>
    if c = '"' then some ([], r)
    else if c = '\\' then
      match r with
      | [] => none
      | e :: r2 =>
        let dec : Option Char :=
          if e = '"' then some '"'
          else if e = '\\' then some '\\'
          else if e = '/' then some '/'
          else if e = 'n' then some '\n'
          else if e = 't' then some '\t'
          else if e = 'r' then some '\r'
          else if e = 'b' then some (Char.ofNat 8)
          else if e = 'f' then some (Char.ofNat 12)
          else none
        match dec with
        | some d =>
          match parseStrBody r2 with
          | some (cs, rem) => some (d :: cs, rem)
          | none => none
        | none => none
    else
      match parseStrBody r with
      | some (cs, rem) => some (c :: cs, rem)
      | none => none

/-- Take the leading decimal digits off the input. -/
def parseDigits : List Char → List Nat × List Char
  | [] => ([], [])
  | c :: r =>
    if c.isDigit then
      let p := parseDigits r
      ((c.toNat - 48) :: p.1, p.2)
    else ([], c :: r)

/-- Combine a digit list into a natural number. -/
def natOfDigits (ds : List Nat) : Nat := ds.foldl (fun a d => a * 10 + d) 0

/-- The rational value of a parsed decimal: sign, integer digits, fraction
digits, exponent sign and magnitude.  Built through `Rat.normalize` on
integer arithmetic so that the kernel can evaluate it. -/
def decToRat (neg : Bool) (ip fp : List Nat) (expNeg : Bool) (e : Nat) : Rat :=
  let m : Nat := natOfDigits (ip ++ fp)
  let sgn : Int := if neg then -(m : Int) else (m : Int)
  if expNeg then
    Rat.normalize sgn (10 ^ (fp.length + e)) (pow_ne_zero _ (by decide))
  else
    Rat.normalize (sgn * 10 ^ e) (10 ^ fp.length) (pow_ne_zero _ (by decide))

/-- Parse a JSON number (integer part, optional fraction, optional exponent)
into a rational. -/
def parseNum (l : List Char) : Option (Rat × List Char) :=
  let sgn := match l with
    | c :: r => if c = '-' then (true, r) else (false, l)
    | [] => (false, ([] : List Char))
  match parseDigits sgn.2 with
  | ([], _) => none
  | (ip, l2) =>
    let fr : List Nat × List Char :=
      match l2 with
      | c :: r =>
        if c = '.' then
          match parseDigits r with
          | ([], _) => ([], l2)
          | (fs, rem) => (fs, rem)
        else ([], l2)
      | [] => ([], l2)
    let l3 := fr.2
    let ex : (Bool × Nat) × List Char :=
      match l3 with
      | c :: r =>
        if c = 'e' ∨ c = 'E' then
          let es : Bool × List Char :=
            match r with
            | d :: r2 => if d = '+' then (false, r2) else if d = '-' then (true, r2) else (false, r)
            | [] => (false, r)
          match parseDigits es.2 with
          | ([], _) => ((false, 0), l3)
          | (ds, rem) => ((es.1, natOfDigits ds), rem)
        else ((false, 0), l3)
      | [] => ((false, 0), l3)
    some (decToRat sgn.1 ip fr.1 ex.1.1 ex.1.2, ex.2)

/-- Parse a JSON scalar value (string, number, boolean, null). -/
def parseValue (l : List Char) : Option (Jv × List Char) :=
  match skipWs l with
  | [] => none
  | c :: r =>
    if c = '"' then
      match parseStrBody r with
      | some (cs, rem) => some (.jstr (String.mk cs), rem)
      | none => none
    else if c = 't' then
      match r with
      | 'r' :: 'u' :: 'e' :: rem => some (.jbool true, rem)
      | _ => none
    else if c = 'f' then
      match r with
      | 'a' :: 'l' :: 's' :: 'e' :: rem => some (.jbool false, rem)
      | _ => none
    else if c = 'n' then
      match r with
      | 'u' :: 'l' :: 'l' :: rem => some (.jnull, rem)
      | _ => none
    else
      match parseNum (c :: r) with
      | some (q, rem) => some (.jnum q, rem)
      | none => none

/-- Parse the member list of a JSON object, fuel-bounded.  Returns the pairs
and the input remaining after the closing brace. -/
def parseMembers : Nat → List Char → Option (JObj × List Char)
  | 0, _ => none
  | fuel + 1, l =>
    match skipWs l with
    | [] => none
    | c :: r =>
      if c = '"' then
        match parseStrBody r with
        | none => none
        | some (kcs, r1) =>
          match skipWs r1 with
          | [] => none
          | c2 :: r2 =>
            if c2 = ':' then
              match parseValue r2 with
              | none => none
              | some (v, r3) =>
                match skipWs r3 with
                | [] => none
                | c3 :: r4 =>
                  if c3 = ',' then
                    match parseMembers fuel r4 with
                    | some (rest, r5) => some ((String.mk kcs, v) :: rest, r5)
                    | none => none
                  else if c3 = rbrace then some ([(String.mk kcs, v)], r4)
                  else none
            else none
      else none

/-- Models `json.loads` restricted to the flat objects emitted by the
loudnorm filter: accepts exactly a whole-input JSON object whose values are
scalars; anything else (including non-dict JSON, which the Python caller
also skips) yields `none`. -/
def parseJsonObject (l : List Char) : Option JObj :=
  match skipWs l with
  | [] => none
  | c :: r =>
    if c = lbrace then
      match skipWs r with
      | [] => none
      | c2 :: r2 =>
        if c2 = rbrace then
          match skipWs r2 with
          | [] => some []
          | _ => none
        else
          match parseMembers (l.length + 1) (c2 :: r2) with
          | some (o, rem) =>
            match skipWs rem with
            | [] => some o
            | _ => none
          | none => none
    else none

/-- State machine equivalent of `re.findall(r"\x7b[\s\S]*?\x7d", text)`:
each match runs from a `\x7b` to the nearest following `\x7d`, and scanning
resumes after the match (non-overlapping, non-greedy). -/
def fbAux : Option (List Char) → List Char → List (List Char)
  | _, [] => []
  | none, c :: rest =>
    if c = lbrace then fbAux (some [c]) rest else fbAux none rest
  | some acc, c :: rest =>
    if c = rbrace then (acc ++ [c]) :: fbAux none rest
    else fbAux (some (acc ++ [c])) rest

/-- All brace-delimited candidate blocks of a text, in order. -/
def findBlocks (l : List Char) : List (List Char) := fbAux none l

/-- Does a parsed object contain the four required loudnorm keys? -/
def hasLoudnormKeys (o : JObj) : Bool :=
  (o.any (fun p => p.1 = "input_i")) && (o.any (fun p => p.1 = "input_tp")) &&
  (o.any (fun p => p.1 = "input_lra")) && (o.any (fun p => p.1 = "input_thresh"))

/-- A candidate block qualifies when it parses as a JSON object carrying the
four required measurement keys. -/
def loudnormCandidate (blob : List Char) : Option JObj :=
  match parseJsonObject blob with
  | some o => if hasLoudnormKeys o then some o else none
  | none => none

/-- `audio_normalizer._parse_loudnorm_json`: scan all brace blocks of the
captured stderr text and keep the last one that parses with the four
required keys. -/
def _parse_loudnorm_json (stderr_text : String) : Except String JObj :=
  let candidates := findBlocks stderr_text.toList
  let last_good := candidates.foldl
    (fun acc blob =>
      match loudnormCandidate blob with
      | some o => some o
      | none => acc)
    (none : Option JObj)
  match last_good with
  | some o => .ok o
  | none => .error "Could not locate loudnorm JSON output in ffmpeg stderr"

/-- The result of Python `float(...)`: a finite rational or one of the IEEE
non-finite values. -/
inductive PyFloat where
  | finite : Rat → PyFloat
  | inf : PyFloat
  | neginf : PyFloat
  | nan : PyFloat
deriving DecidableEq, Repr

/-- Models Python `float(str)` on its usual inputs: surrounding whitespace
stripped, optional sign, then either `inf`/`infinity`/`nan`
(case-insensitive) or a decimal mantissa (digits, optional fraction, either
part may be empty but not both) with an optional exponent. -/
def parsePyFloat (s : String) : Option PyFloat :=
  let cs0 := (pyStrip s).toList.map Char.toLower
  let sg : Bool × List Char :=
    match cs0 with
    | c :: r => if c = '-' then (true, r) else if c = '+' then (false, r) else (false, cs0)
    | [] => (false, [])
  let body := sg.2
  if body = "inf".toList ∨ body = "infinity".toList then
    some (if sg.1 then PyFloat.neginf else PyFloat.inf)
  else if body = "nan".toList then some PyFloat.nan
  else
    let p1 := parseDigits body
    let hasInt := !(List.isEmpty p1.1)
    let step2 : Option (List Nat × List Char) :=
      match p1.2 with
      | c :: r =>
        if c = '.' then
          let p2 := parseDigits r
          if !hasInt && List.isEmpty p2.1 then none
          else some (p2.1, p2.2)
        else if hasInt then some ([], p1.2) else none
      | [] => if hasInt then some ([], ([] : List Char)) else none
    match step2 with
    | none => none
    | some (fp, l3) =>
      let step3 : Option (Bool × Nat) :=
        match l3 with
        | [] => some (false, 0)
        | c :: r =>
          if c = 'e' then
            let es : Bool × List Char :=
              match r with
              | d :: r2 => if d = '+' then (false, r2) else if d = '-' then (true, r2) else (false, r)
              | [] => (false, r)
            let p3 := parseDigits es.2
            if List.isEmpty p3.1 ∨ !(List.isEmpty p3.2) then none
            else some (es.1, natOfDigits p3.1)
          else none
      match step3 with
      | none => none
      | some (expNeg, e) => some (.finite (decToRat sg.1 p1.1 fp expNeg e))

/-- Models Python `float(value)` applied to a JSON field value; `none`
stands for a missing key (Python `None`), on which `float` raises. -/
def pyFloatOf : Option Jv → Option PyFloat
  | none => none
  | some .jnull => none
  | some (.jbool b) => some (.finite (if b then 1 else 0))
  | some (.jnum q) => some (.finite q)
  | some (.jstr s) => parsePyFloat s

/-- `audio_normalizer._is_finite_number`: `float(value)` succeeds and the
result is finite. -/
def _is_finite_number (v : Option Jv) : Bool :=
  match pyFloatOf v with
  | some (.finite _) => true
  | _ => false

/-- Python `dict.get`: last binding of a key wins (as in a dict built by
`json.loads`). -/
def jGet (o : JObj) (k : String) : Option Jv :=
  (o.reverse.find? (fun p => p.1 = k)).map (fun p => p.2)

/-- The finite value of a field already validated by
` _is_finite_number` (default 0 on the unreachable branch). -/
def floatOrZero (v : Option Jv) : Rat :=
  match pyFloatOf v with
  | some (.finite q) => q
  | _ => 0

/-- `audio_normalizer._extract_measurements`. -/
def _extract_measurements (obj : JObj) : Except String LoudnormMeasurements :=
  let measured_I := jGet obj "input_i"
  let measured_TP := jGet obj "input_tp"
  let measured_LRA := jGet obj "input_lra"
  let measured_thresh := jGet obj "input_thresh"
  let offset := jGet obj "target_offset"
  let fields : List (String × Option Jv) :=
    [("measured_I", measured_I), ("measured_TP", measured_TP),
     ("measured_LRA", measured_LRA), ("measured_thresh", measured_thresh),
     ("offset", offset)]
  let bad := (fields.filter (fun p => !(_is_finite_number p.2))).map (fun p => p.1)
  if bad ≠ [] then
    .error ("Invalid loudnorm measurement values: " ++ String.intercalate ", " bad)
  else
    .ok ⟨floatOrZero measured_I, floatOrZero measured_TP, floatOrZero measured_LRA,
         floatOrZero measured_thresh, floatOrZero offset, obj⟩

/-!  Pass-1 analysis loop (`analyze_loudnorm_two_pass`, lines 209-267).

The subprocess interaction is modelled by a trace of read events: what each
`process.stderr.readline()` call returned, together with the wall-clock
elapsed seconds at that moment, and whether `process.poll()` saw the process
exited when the read came back empty.  Progress *logging* (lines 226-249) is
pure side effect and is elided.  -/

/-- One `readline()` observation of the analysis subprocess. -/
inductive AnalysisEvent where
  /-- A non-empty diagnostic line, with the wall-clock seconds elapsed when
  the timeout check after it runs. -/
  | line : String → Rat → AnalysisEvent
  /-- `readline()` returned empty but `poll()` showed the process still
  running (the `continue` branch), at the given elapsed seconds. -/
  | eofAlive : Rat → AnalysisEvent
  /-- `readline()` returned empty and the process had exited with the given
  return code (the `break` branch, followed by `process.wait()`). -/
  | exited : Int → AnalysisEvent
deriving DecidableEq, Repr

/-- Actions taken against the subprocess on timeout. -/
inductive KillStep where
  | terminate : KillStep
  | kill : KillStep
deriving DecidableEq, Repr

/-- `process.terminate()`, then `process.kill()` only if the process does
not die within the 5-second grace period of `process.wait(timeout=5)`. -/
def killSequence (diesWithinGrace : Bool) : List KillStep :=
  [KillStep.terminate] ++ (if diesWithinGrace then [] else [KillStep.kill])

/-- Outcome of the stderr read loop. -/
inductive LoopResult where
  /-- Timeout detected after a diagnostic line: the process-handling steps
  taken and the stderr lines collected so far. -/
  | timedOut : List KillStep → List String → LoopResult
  /-- The loop broke because the process exited; return code and collected
  stderr lines. -/
  | exited : Int → List String → LoopResult
  /-- The trace ended with the process still running (the Python loop would
  still be blocked in `readline()`). -/
  | blocked : List String → LoopResult
deriving DecidableEq, Repr

/-- The stderr read loop of `analyze_loudnorm_two_pass` (lines 209-259) over
an event trace: collect each non-empty line, then check the wall clock
against `timeout_seconds` (strictly greater fires); empty reads with the
process alive just continue — no timeout check; an empty read with the
process exited breaks the loop. -/
def runLoop (timeout_seconds : Int) (diesWithinGrace : Bool) :
    List AnalysisEvent → List String → LoopResult
  | [], acc => .blocked acc
  | .line s t :: rest, acc =>
    let acc' := acc ++ [s]
    if (timeout_seconds : Rat) < t then .timedOut (killSequence diesWithinGrace) acc'
    else runLoop timeout_seconds diesWithinGrace rest acc'
  | .eofAlive _ :: rest, acc => runLoop timeout_seconds diesWithinGrace rest acc
  | .exited code :: _, acc => .exited code acc

/-- `analyze_loudnorm_two_pass` after the read loop: a timeout becomes
`RuntimeError("... timeout after Ns")` (the `subprocess.TimeoutExpired`
raised inside the `try` is re-raised as `RuntimeError` by the handler at
line 278); a non-zero exit raises with the last 1000 characters of the
stripped stderr; otherwise the captured text is parsed and validated. -/
def analyze_loudnorm_two_pass (timeout_seconds : Int) (diesWithinGrace : Bool)
    (events : List AnalysisEvent) : Except String LoudnormMeasurements :=
  match runLoop timeout_seconds diesWithinGrace events [] with
  | .timedOut _ _ =>
    .error ("ffmpeg loudnorm pass 1 timeout after " ++ toString timeout_seconds ++ "s")
  | .blocked _ =>
    .error "process still running"
  | .exited code collected =>
    if code ≠ 0 then
      .error ("ffmpeg loudnorm pass 1 failed (code " ++ toString code ++ "): " ++
        lastN 1000 (pyStrip (String.join collected)))
    else
      match _parse_loudnorm_json (String.join collected) with
      | .error e => .error e
      | .ok obj => _extract_measurements obj

/-- Per-codec audio settings of `TranscoderConfig` (external to `src/`;
modelled from the spec's config contract: per-codec numeric quality knobs
and normalization settings, plus the USDB default loudness returned by
`get_usdb_target_loudness()`). -/
structure AudioConfig where
  mp3_quality : Int
  vorbis_quality : Rat
  aac_vbr_mode : Int
  opus_bitrate_kbps : Int
  audio_normalization_enabled : Bool
  audio_normalization_method : String
  audio_normalization_use_usdb_defaults : Bool
  usdb_target_loudness : Rat
  audio_normalization_target : Rat
  audio_normalization_true_peak : Rat
  audio_normalization_lra : Rat
deriving DecidableEq, Repr

/-- `cfg.h264` / `cfg.hevc` settings. -/
structure H26xConfig where
  preset : String
  profile : String
  crf : Int
  pixel_format : String
deriving DecidableEq, Repr

/-- `cfg.vp8` settings. -/
structure VP8Config where
  crf : Int
  cpu_used : Int
deriving DecidableEq, Repr

/-- `cfg.vp9` settings. -/
structure VP9Config where
  crf : Int
  deadline : String
  cpu_used : Int
deriving DecidableEq, Repr

/-- `cfg.av1` settings. -/
structure AV1Config where
  crf : Int
  cpu_used : Int
deriving DecidableEq, Repr

/-- `cfg.general` settings (`max_bitrate_kbps`, `max_resolution`, `max_fps`
are optional and Python-falsy when 0/None). -/
structure GeneralConfig where
  max_bitrate_kbps : Option Int
  max_resolution : Option (Int × Int)
  max_fps : Option Int
  timeout_seconds : Int
deriving DecidableEq, Repr

/-- `cfg.usdb_integration` settings. -/
structure UsdbIntegrationConfig where
  use_usdb_resolution : Bool
deriving DecidableEq, Repr

/-- `TranscoderConfig` (external to `src/`; field layout as consumed by
`codecs.py` and `audio_normalizer.py`). -/
structure TranscoderConfig where
  h264 : H26xConfig
  vp8 : VP8Config
  hevc : H26xConfig
  vp9 : VP9Config
  av1 : AV1Config
  general : GeneralConfig
  usdb_integration : UsdbIntegrationConfig
  audio : AudioConfig
deriving DecidableEq, Repr

/-- The loudnorm targets the orchestrator builds (lines 370-385): USDB
defaults (true-peak/loudness-range omitted) or the custom configured
triple. -/
def loudnormTargetsOf (cfg : TranscoderConfig) : LoudnormTargets :=
  if cfg.audio.audio_normalization_use_usdb_defaults then
    ⟨cfg.audio.usdb_target_loudness, none, none⟩
  else
    ⟨cfg.audio.audio_normalization_target,
     some cfg.audio.audio_normalization_true_peak,
     some cfg.audio.audio_normalization_lra⟩

/-- `audio_normalizer.maybe_apply_audio_normalization`.

The call to `analyze_loudnorm_two_pass` — the only step inside the `try`
that can raise — is abstracted as the function argument `analyze`, applied
to the targets and the timeout the orchestrator computes at line 393.  The
Python function never raises (the `try/except` swallows every failure and
returns `base_cmd`), which the model reflects by returning a plain
`List String`. -/
def maybe_apply_audio_normalization (base_cmd : List String)
    (cfg : TranscoderConfig) (stream_copy : Bool)
    (precomputed_meas : Option LoudnormMeasurements)
    (analyze : LoudnormTargets → Int → Except String LoudnormMeasurements) :
    List String :=
  if !cfg.audio.audio_normalization_enabled then base_cmd
  else if stream_copy then base_cmd
  else
    let method := cfg.audio.audio_normalization_method
    if method = "loudnorm" then
      let targets := loudnormTargetsOf cfg
      let measE : Except String LoudnormMeasurements :=
        match precomputed_meas with
        | some m => .ok m
        | none => analyze targets (min cfg.general.timeout_seconds 300)
      match measE with
      | .ok meas => inject_audio_filter base_cmd (build_loudnorm_pass2_filter targets meas)
      | .error _ => base_cmd
    else if method = "replaygain" then
      inject_audio_filter base_cmd build_replaygain_filter
    else base_cmd

/-- `video_analyzer.VideoInfo` (external to `src/`; the stream descriptor
fields consumed by `codecs.py`). -/
structure VideoInfo where
  codec_name : String
  pixel_format : String
  profile : Option String
  has_audio : Bool
  audio_codec : String
deriving DecidableEq, Repr

/-- A hardware accelerator collaborator: its `get_decoder` operation. -/
abbrev Accel := VideoInfo → Option String

/-- `CodecHandler.get_qsv_decoder`: static input-codec → QSV decoder map. -/
def get_qsv_decoder (video_info : VideoInfo) : Option String :=
  let m := [("h264", "h264_qsv"), ("hevc", "hevc_qsv"), ("h265", "hevc_qsv"),
            ("vp9", "vp9_qsv"), ("mpeg2video", "mpeg2_qsv"), ("vc1", "vc1_qsv"),
            ("av1", "av1_qsv"), ("mjpeg", "mjpeg_qsv")]
  (m.find? (fun p => p.1 = strLower video_info.codec_name)).map (fun p => p.2)

/-- `CodecHandler.get_hw_decoder`: defer to the selected accelerator; no
accelerator means no hardware decoder. -/
def get_hw_decoder (video_info : VideoInfo) (accel : Option Accel) : Option String :=
  match accel with
  | none => none
  | some a => a video_info

/-- The `-maxrate`/`-bufsize` pair each video builder emits when
`cfg.general.max_bitrate_kbps` is truthy (present and non-zero). -/
def maxBitrateArgs (cfg : TranscoderConfig) : List String :=
  match cfg.general.max_bitrate_kbps with
  | some k => if k = 0 then [] else
      ["-maxrate", toString k ++ "k", "-bufsize", toString (k * 2) ++ "k"]
  | none => []

/-- The bound-fitting scale filter
`scale='min(iw,W)':'min(ih,H)':force_original_aspect_ratio=decrease`. -/
def scaleFitStr (w h : Int) : String :=
  "scale=" ++ sq ++ "min(iw," ++ toString w ++ ")" ++ sq ++ ":" ++ sq ++
    "min(ih," ++ toString h ++ ")" ++ sq ++ ":force_original_aspect_ratio=decrease"

/-- The exact-bounds scale-with-letterbox filter
`scale=W:H:force_original_aspect_ratio=decrease,pad=W:H:(ow-iw)/2:(oh-ih)/2`. -/
def scalePadStr (w h : Int) : String :=
  "scale=" ++ toString w ++ ":" ++ toString h ++
    ":force_original_aspect_ratio=decrease,pad=" ++ toString w ++ ":" ++
    toString h ++ ":(ow-iw)/2:(oh-ih)/2"

/-- The `fps=fps=N` filter emitted when `cfg.general.max_fps` is truthy. -/
def fpsFilter (cfg : TranscoderConfig) : List String :=
  match cfg.general.max_fps with
  | some f => if f = 0 then [] else ["fps=fps=" ++ toString f]
  | none => []

/-- The video-filter chain of the H.264/VP8/HEVC builders: scale mode picked
by `cfg.usdb_integration.use_usdb_resolution`, then the fps filter. -/
def vfMain (cfg : TranscoderConfig) : List String :=
  (match cfg.general.max_resolution with
   | some (w, h) =>
     [if cfg.usdb_integration.use_usdb_resolution then scaleFitStr w h else scalePadStr w h]
   | none => []) ++ fpsFilter cfg

/-- The video-filter chain of the VP9/AV1 builders: always the bound-fitting
scale, then the fps filter. -/
def vfSimple (cfg : TranscoderConfig) : List String :=
  (match cfg.general.max_resolution with
   | some (w, h) => [scaleFitStr w h]
   | none => []) ++ fpsFilter cfg

/-- The `-vf` argument pair when the filter chain is non-empty. -/
def vfArgs (vf : List String) : List String :=
  if vf ≠ [] then ["-vf", String.intercalate "," vf] else []

/-- The MP4-family audio branch (H.264/HEVC, and AV1 on MP4 outputs):
stream-copy container-native codecs, else AAC at 192k; `-an` without
audio. -/
def audioArgsMp4Family (video_info : VideoInfo) : List String :=
  if video_info.has_audio then
    if ["aac", "mp3", "alac"].contains video_info.audio_codec then ["-c:a", "copy"]
    else ["-c:a", "aac", "-b:a", "192k"]
  else ["-an"]

/-- The WebM/MKV-family audio branch (VP8/VP9, and AV1 off MP4 outputs):
stream-copy Opus/Vorbis, else Opus at 160k; `-an` without audio. -/
def audioArgsWebmFamily (video_info : VideoInfo) : List String :=
  if video_info.has_audio then
    if ["opus", "vorbis"].contains video_info.audio_codec then ["-c:a", "copy"]
    else ["-c:a", "libopus", "-b:a", "160k"]
  else ["-an"]

/-- The `-c:v <decoder>` pair when hardware decode is enabled and the
accelerator names a decoder. -/
def hwDecodeArgs (hw_decode_enabled : Bool) (video_info : VideoInfo)
    (accel : Option Accel) : List String :=
  if hw_decode_enabled then
    match get_hw_decoder video_info accel with
    | some d => ["-c:v", d]
    | none => []
  else []

/-- The `-movflags +faststart` pair for MP4-family output extensions. -/
def movflagsArgs (output_path : String) : List String :=
  if [".mp4", ".mov"].contains (strLower (pathSuffix output_path)) then
    ["-movflags", "+faststart"]
  else []

namespace H264Handler

/-- `H264Handler.build_encode_command`. -/
def build_encode_command (input_path output_path : String) (video_info : VideoInfo)
    (cfg : TranscoderConfig) (accel : Option Accel)
    (hw_encode_enabled hw_decode_enabled : Bool) : List String :=
  let cmd := ["ffmpeg", "-y", "-hide_banner"]
  let cmd := cmd ++ hwDecodeArgs hw_decode_enabled video_info accel
  let cmd := cmd ++ ["-i", input_path]
  let cmd := cmd ++
    (if hw_encode_enabled ∧ accel.isSome then
      ["-c:v", "h264_qsv", "-preset", cfg.h264.preset, "-profile:v", cfg.h264.profile,
       "-global_quality", toString cfg.h264.crf, "-look_ahead", "1", "-pix_fmt", "nv12"]
     else
      ["-c:v", "libx264", "-preset", cfg.h264.preset, "-profile:v", cfg.h264.profile,
       "-crf", toString cfg.h264.crf, "-pix_fmt", cfg.h264.pixel_format])
  let cmd := cmd ++ ["-vsync", "cfr"]
  let cmd := cmd ++ maxBitrateArgs cfg
  let cmd := cmd ++ vfArgs (vfMain cfg)
  let cmd := cmd ++ audioArgsMp4Family video_info
  let cmd := cmd ++ movflagsArgs output_path
  cmd ++ [output_path]

end H264Handler

namespace VP8Handler

/-- `VP8Handler.build_encode_command`. -/
def build_encode_command (input_path output_path : String) (video_info : VideoInfo)
    (cfg : TranscoderConfig) (accel : Option Accel)
    (hw_encode_enabled hw_decode_enabled : Bool) : List String :=
  let cmd := ["ffmpeg", "-y", "-hide_banner"]
  let cmd := cmd ++ hwDecodeArgs hw_decode_enabled video_info accel
  let cmd := cmd ++ ["-i", input_path]
  let cmd := cmd ++
    ["-c:v", "libvpx", "-crf", toString cfg.vp8.crf, "-b:v", "0",
     "-cpu-used", toString cfg.vp8.cpu_used, "-deadline", "good",
     "-auto-alt-ref", "1", "-lag-in-frames", "16", "-pix_fmt", "yuv420p",
     "-vsync", "cfr"]
  let cmd := cmd ++ maxBitrateArgs cfg
  let cmd := cmd ++ vfArgs (vfMain cfg)
  let cmd := cmd ++ audioArgsWebmFamily video_info
  cmd ++ [output_path]

end VP8Handler

namespace HEVCHandler

/-- `HEVCHandler.build_encode_command`. -/
def build_encode_command (input_path output_path : String) (video_info : VideoInfo)
    (cfg : TranscoderConfig) (accel : Option Accel)
    (hw_encode_enabled hw_decode_enabled : Bool) : List String :=
  let cmd := ["ffmpeg", "-y", "-hide_banner"]
  let cmd := cmd ++ hwDecodeArgs hw_decode_enabled video_info accel
  let cmd := cmd ++ ["-i", input_path]
  let cmd := cmd ++
    (if hw_encode_enabled ∧ accel.isSome then
      ["-c:v", "hevc_qsv", "-preset", cfg.hevc.preset, "-profile:v", cfg.hevc.profile,
       "-global_quality", toString cfg.hevc.crf, "-rc_mode", "icq", "-pix_fmt", "nv12"]
     else
      ["-c:v", "libx265", "-preset", cfg.hevc.preset, "-profile:v", cfg.hevc.profile,
       "-crf", toString cfg.hevc.crf, "-tag:v", "hvc1", "-pix_fmt", cfg.hevc.pixel_format])
  let cmd := cmd ++ ["-vsync", "cfr"]
  let cmd := cmd ++ maxBitrateArgs cfg
  let cmd := cmd ++ vfArgs (vfMain cfg)
  let cmd := cmd ++ audioArgsMp4Family video_info
  let cmd := cmd ++ movflagsArgs output_path
  cmd ++ [output_path]

end HEVCHandler

namespace VP9Handler

/-- `VP9Handler.build_encode_command`. -/
def build_encode_command (input_path output_path : String) (video_info : VideoInfo)
    (cfg : TranscoderConfig) (accel : Option Accel)
    (hw_encode_enabled hw_decode_enabled : Bool) : List String :=
  let cmd := ["ffmpeg", "-y", "-hide_banner"]
  let cmd := cmd ++ hwDecodeArgs hw_decode_enabled video_info accel
  let cmd := cmd ++ ["-i", input_path]
  let cmd := cmd ++
    (if hw_encode_enabled ∧ accel.isSome then
      ["-c:v", "vp9_qsv", "-global_quality", toString cfg.vp9.crf, "-pix_fmt", "nv12"]
     else
      ["-c:v", "libvpx-vp9", "-crf", toString cfg.vp9.crf, "-b:v", "0",
       "-deadline", cfg.vp9.deadline, "-cpu-used", toString cfg.vp9.cpu_used,
       "-row-mt", "1", "-tile-columns", "2", "-g", "240", "-pix_fmt", "yuv420p"])
  let cmd := cmd ++ ["-vsync", "cfr"]
  let cmd := cmd ++ maxBitrateArgs cfg
  let cmd := cmd ++ vfArgs (vfSimple cfg)
  let cmd := cmd ++ audioArgsWebmFamily video_info
  cmd ++ [output_path]

end VP9Handler

namespace AV1Handler

/-- `AV1Handler.build_encode_command`.  The probe
`utils.check_encoder_available` is not part of `src/`; following the spec
("probes for two alternative software encoder backends in a fixed
preference order before falling back to a generic encoder name"), it is
passed in as the deterministic availability map `chk`. -/
def build_encode_command (chk : String → Bool)
    (input_path output_path : String) (video_info : VideoInfo)
    (cfg : TranscoderConfig) (accel : Option Accel)
    (hw_encode_enabled hw_decode_enabled : Bool) : List String :=
  let cmd := ["ffmpeg", "-y", "-hide_banner"]
  let cmd := cmd ++ hwDecodeArgs hw_decode_enabled video_info accel
  let cmd := cmd ++ ["-i", input_path]
  let cmd := cmd ++
    (if hw_encode_enabled ∧ accel.isSome then
      ["-c:v", "av1_qsv", "-rc_mode", "icq", "-global_quality", toString cfg.av1.crf,
       "-pix_fmt", "nv12"]
     else if chk "libsvtav1" then
      ["-c:v", "libsvtav1", "-crf", toString cfg.av1.crf, "-preset", toString cfg.av1.cpu_used,
       "-g", "240", "-pix_fmt", "yuv420p10le"]
     else if chk "libaom-av1" then
      ["-c:v", "libaom-av1", "-crf", toString cfg.av1.crf, "-cpu-used", toString cfg.av1.cpu_used,
       "-g", "240", "-pix_fmt", "yuv420p10le"]
     else ["-c:v", "av1"])
  let cmd := cmd ++ ["-vsync", "cfr"]
  let cmd := cmd ++ maxBitrateArgs cfg
  let cmd := cmd ++ vfArgs (vfSimple cfg)
  let cmd := cmd ++
    (if video_info.has_audio then
      if [".mp4", ".mov"].contains (strLower (pathSuffix output_path)) then
        if ["aac", "mp3", "alac"].contains video_info.audio_codec then ["-c:a", "copy"]
        else ["-c:a", "aac", "-b:a", "192k"]
      else
        if ["opus", "vorbis"].contains video_info.audio_codec then ["-c:a", "copy"]
        else ["-c:a", "libopus", "-b:a", "160k"]
     else ["-an"])
  let cmd := cmd ++ movflagsArgs output_path
  cmd ++ [output_path]

end AV1Handler

/-- `codecs._ensure_int_in_range`. -/
def _ensure_int_in_range (name : String) (value low high : Int) : Except String Unit :=
  if value < low ∨ value > high then
    .error (name ++ " must be between " ++ toString low ++ " and " ++ toString high ++
      " (got " ++ toString value ++ ")")
  else .ok ()

/-- `codecs._ensure_float_in_range`. -/
def _ensure_float_in_range (name : String) (value low high : Rat) : Except String Unit :=
  if value < low ∨ value > high then
    .error (name ++ " must be between " ++ toString low ++ " and " ++ toString high ++
      " (got " ++ toString value ++ ")")
  else .ok ()

/-- `codecs._audio_common_prefix`: the fixed argument head of every
audio-only command. -/
def _audio_common_prefix (input_path : String) : List String :=
  ["ffmpeg", "-y", "-hide_banner", "-i", input_path, "-map", "0:a:0?", "-vn", "-sn", "-dn"]

/-- `codecs._audio_force_extension`: validate the output extension against
the codec's accepted container extensions. -/
def _audio_force_extension (path : String) (extensions : List String) : Except String Unit :=
  let ext := lstripDots (strLower (pathSuffix path))
  if !(extensions.contains ext) then
    .error ("Unsupported output extension " ++ sq ++ "." ++ ext ++ sq ++ " for audio codec")
  else .ok ()

namespace MP3AudioHandler

/-- `MP3AudioHandler.container_extensions` from its `capabilities()`. -/
def container_extensions : List String := ["mp3"]

/-- `MP3AudioHandler.validate_config`. -/
def validate_config (cfg : TranscoderConfig) : Except String Unit :=
  _ensure_int_in_range "mp3_quality" cfg.audio.mp3_quality 0 9

/-- `MP3AudioHandler.build_encode_command`. -/
def build_encode_command (input_path output_path : String) (cfg : TranscoderConfig)
    (stream_copy : Bool) : Except String (List String) :=
  match validate_config cfg with
  | .error e => .error e
  | .ok _ =>
    match _audio_force_extension output_path container_extensions with
    | .error e => .error e
    | .ok _ =>
      let cmd := _audio_common_prefix input_path
      let cmd := cmd ++
        (if stream_copy then ["-c:a", "copy"]
         else ["-c:a", "libmp3lame", "-q:a", toString cfg.audio.mp3_quality])
      .ok (cmd ++ [output_path])

end MP3AudioHandler

namespace VorbisAudioHandler

/-- `VorbisAudioHandler.container_extensions` from its `capabilities()`. -/
def container_extensions : List String := ["ogg"]

/-- `VorbisAudioHandler.validate_config`. -/
def validate_config (cfg : TranscoderConfig) : Except String Unit :=
  _ensure_float_in_range "vorbis_quality" cfg.audio.vorbis_quality (-1) 10

/-- Models Python `str(float(x))` for the decimal values the transcoder
configuration holds: shortest decimal expansion with at least one
fractional digit (computed on the numerator/denominator directly). -/
def pyFloatStr (q : Rat) : String :=
  match (List.range 18).find? (fun k => 10 ^ k % q.den = 0) with
  | some 0 => toString q.num ++ ".0"
  | some k =>
    let n := q.num * ((10 ^ k / q.den : Nat) : Int)
    let s := if n < 0 then "-" else ""
    let a := n.natAbs
    let ip := a / 10 ^ k
    let fp := a % 10 ^ k
    let fpDigits := toString fp
    let fpPad := String.mk (List.replicate (k - fpDigits.length) '0') ++ fpDigits
    s ++ toString ip ++ "." ++ fpPad
  | none => toString q.num ++ "/" ++ toString q.den

/-- `VorbisAudioHandler.build_encode_command`. -/
def build_encode_command (input_path output_path : String) (cfg : TranscoderConfig)
    (stream_copy : Bool) : Except String (List String) :=
  match validate_config cfg with
  | .error e => .error e
  | .ok _ =>
    match _audio_force_extension output_path container_extensions with
    | .error e => .error e
    | .ok _ =>
      let cmd := _audio_common_prefix input_path
      let cmd := cmd ++
        (if stream_copy then ["-c:a", "copy"]
         else ["-c:a", "libvorbis", "-q:a", pyFloatStr cfg.audio.vorbis_quality])
      .ok (cmd ++ [output_path])

end VorbisAudioHandler

namespace AACAudioHandler

/-- `AACAudioHandler.container_extensions` from its `capabilities()`. -/
def container_extensions : List String := ["m4a", "mp4"]

/-- `AACAudioHandler.validate_config`. -/
def validate_config (cfg : TranscoderConfig) : Except String Unit :=
  _ensure_int_in_range "aac_vbr_mode" cfg.audio.aac_vbr_mode 1 5

/-- `AACAudioHandler.build_encode_command`. -/
def build_encode_command (input_path output_path : String) (cfg : TranscoderConfig)
    (stream_copy : Bool) : Except String (List String) :=
  match validate_config cfg with
  | .error e => .error e
  | .ok _ =>
    match _audio_force_extension output_path ["m4a", "mp4"] with
    | .error e => .error e
    | .ok _ =>
      let cmd := _audio_common_prefix input_path
      let cmd := cmd ++
        (if stream_copy then ["-c:a", "copy"]
         else ["-c:a", "aac", "-vbr", toString cfg.audio.aac_vbr_mode])
      let cmd := cmd ++
        (if [".m4a", ".mp4", ".mov"].contains (strLower (pathSuffix output_path)) then
          ["-movflags", "+faststart"]
         else [])
      .ok (cmd ++ [output_path])

end AACAudioHandler

namespace OpusAudioHandler

/-- `OpusAudioHandler.container_extensions` from its `capabilities()`. -/
def container_extensions : List String := ["opus"]

/-- `OpusAudioHandler.validate_config`. -/
def validate_config (cfg : TranscoderConfig) : Except String Unit :=
  _ensure_int_in_range "opus_bitrate_kbps" cfg.audio.opus_bitrate_kbps 6 510

/-- `OpusAudioHandler.build_encode_command`. -/
def build_encode_command (input_path output_path : String) (cfg : TranscoderConfig)
    (stream_copy : Bool) : Except String (List String) :=
  match validate_config cfg with
  | .error e => .error e
  | .ok _ =>
    match _audio_force_extension output_path container_extensions with
    | .error e => .error e
    | .ok _ =>
      let cmd := _audio_common_prefix input_path
      let cmd := cmd ++
        (if stream_copy then ["-c:a", "copy"]
         else ["-c:a", "libopus", "-b:a", toString cfg.audio.opus_bitrate_kbps ++ "k"])
      .ok (cmd ++ [output_path])

end OpusAudioHandler

/-- The non-empty diagnostic lines of an event trace, in order. -/
def collectLines : List AnalysisEvent → List String
  | [] => []
  | .line s _ :: r => s :: collectLines r
  | .eofAlive _ :: r => collectLines r
  | .exited _ :: r => collectLines r

/-- Events that neither fire the timeout check nor break the read loop:
diagnostic lines within the bound, and empty reads with the process alive
(at any elapsed time — they perform no timeout check). -/
def nonTriggering (T : Int) : AnalysisEvent → Bool
  | .line _ t => decide (¬ ((T : Rat) < t))
  | .eofAlive _ => true
  | .exited _ => false

/-- The brace blocks of a text that parse as JSON objects with the four
required loudnorm keys. -/
def qualifyingBlocks (text : String) : List JObj :=
  (findBlocks text.toList).filterMap loudnormCandidate

/-- A captured stderr text holding two qualifying loudnorm JSON blocks. -/
def twoBlockText : String :=
  "frame=1 \x7b \"input_i\" : \"-23.0\", \"input_tp\" : \"-5.0\", \"input_lra\" : \"6.0\", " ++
  "\"input_thresh\" : \"-33.0\", \"target_offset\" : \"0.1\" \x7d mid \x7b \"input_i\" : \"-20.0\", " ++
  "\"input_tp\" : \"-3.0\", \"input_lra\" : \"7.0\", \"input_thresh\" : \"-30.0\", " ++
  "\"target_offset\" : \"0.5\" \x7d tail"

/-- The second qualifying block of `twoBlockText`, as parsed. -/
def twoBlockSecond : JObj :=
  [("input_i", Jv.jstr "-20.0"), ("input_tp", Jv.jstr "-3.0"), ("input_lra", Jv.jstr "7.0"),
   ("input_thresh", Jv.jstr "-30.0"), ("target_offset", Jv.jstr "0.5")]

/-- A configuration with every knob in range, used to instantiate
hypothesis-bearing theorems. -/
def sampleCfg : TranscoderConfig :=
  ⟨⟨"medium", "high", 23, "yuv420p"⟩, ⟨10, 2⟩, ⟨"medium", "main", 28, "yuv420p"⟩,
   ⟨32, "good", 2⟩, ⟨35, 6⟩, ⟨some 5000, some (1920, 1080), some 30, 600⟩, ⟨false⟩,
   ⟨5, Rat.normalize 5 2, 3, 160, true, "loudnorm", false, -(23 : Rat), -(16 : Rat),
    Rat.normalize (-3) 2, 11⟩⟩

/-- `sampleCfg` with the Opus bitrate set to 600 kbps. -/
def cfgOpus600 : TranscoderConfig :=
  { sampleCfg with audio := { sampleCfg.audio with opus_bitrate_kbps := 600 } }

/-- A sample stream descriptor. -/
def sampleVi : VideoInfo := ⟨"h264", "yuv420p", some "high", true, "aac"⟩

/-- Sample pass-1 measurements: I=-20.2, TP=-3.1, LRA=7.4, thresh=-30.2,
offset=3.8. -/
def sampleMeas : LoudnormMeasurements :=
  ⟨Rat.normalize (-202) 10, Rat.normalize (-31) 10, Rat.normalize 74 10,
   Rat.normalize (-302) 10, Rat.normalize 38 10, []⟩

/-!  General-purpose list lemmas. -/

theorem take_drop_concat {α : Type} (l : List α) (a : α) :
    (l ++ [a]).take ((l ++ [a]).length - 1) = l ∧
    (l ++ [a]).drop ((l ++ [a]).length - 1) = [a] := by
  have hlen : (l ++ [a]).length - 1 = l.length := by
    simp
  rw [hlen]
  exact ⟨List.take_left l [a], List.drop_left l [a]⟩

/-- Claim C6: `inject_audio_filter` leaves commands with fewer than 2 tokens
unchanged; on commands with at least 2 tokens it inserts exactly the two
tokens `-af` and the filter string immediately before the final token,
keeping all original tokens in relative order (so the length grows by
exactly 2). -/
theorem c6_inject_audio_filter_shape :
    ∀ (cmd : List String) (f : String),
      (cmd.length < 2 → inject_audio_filter cmd f = cmd) ∧
      (2 ≤ cmd.length →
        (inject_audio_filter cmd f).length = cmd.length + 2 ∧
        ∃ lastTok, cmd.getLast? = some lastTok ∧
          inject_audio_filter cmd f = cmd.dropLast ++ ["-af", f, lastTok]) := by
  intro cmd f
  constructor
  · intro h
    unfold inject_audio_filter
    simp [h]
  · intro h
    rcases List.eq_nil_or_concat cmd with hnil | ⟨l, a, hconcat⟩
    · subst hnil; simp at h
    · rw [List.concat_eq_append] at hconcat
      subst hconcat
      have hnot : ¬ (l ++ [a]).length < 2 := by omega
      obtain ⟨htake, hdrop⟩ := take_drop_concat l a
      simp only [inject_audio_filter]
      rw [if_neg hnot, htake, hdrop]
      refine ⟨by simp, a, List.getLast?_concat l, ?_⟩
      rw [List.dropLast_concat]
      simp

/-- Claim C6 witness at a 5-token command and a 1-token command. -/
theorem c6_witness :
    inject_audio_filter ["ffmpeg", "-i", "in.wav", "-vn", "out.mp3"] "loudnorm" =
      ["ffmpeg", "-i", "in.wav", "-vn", "-af", "loudnorm", "out.mp3"] ∧
    inject_audio_filter ["ffmpeg"] "loudnorm" = ["ffmpeg"] := by
  have h5 := (c6_inject_audio_filter_shape ["ffmpeg", "-i", "in.wav", "-vn", "out.mp3"]
    "loudnorm").2 (by decide)
  have h1 := (c6_inject_audio_filter_shape ["ffmpeg"] "loudnorm").1 (by decide)
  refine ⟨?_, h1⟩
  obtain ⟨-, lastTok, hlast, heq⟩ := h5
  have : lastTok = "out.mp3" := by
    simpa using hlast.symm
  subst this
  simpa using heq

/-- Claim C9: `build_loudnorm_pass2_filter` is a pure function of targets
and measurements; numeric values are rendered at fixed 3-decimal precision
with trailing zeros and a trailing decimal point stripped (128 renders as
"128", -1.5 as "-1.5"); and for targets I=-16 with no true-peak or
loudness-range and measurements I=-20.2, TP=-3.1, LRA=7.4, thresh=-30.2,
offset=3.8 the filter is exactly `loudnorm=` followed by
`I=-16:measured_I=-20.2:measured_TP=-3.1:measured_LRA=7.4:measured_thresh=-30.2:offset=3.8`. -/
theorem c9_pass2_filter_rendering :
    (∀ (t t' : LoudnormTargets) (m m' : LoudnormMeasurements), t = t' → m = m' →
      build_loudnorm_pass2_filter t m = build_loudnorm_pass2_filter t' m') ∧
    _format_num (128 : Rat) = "128" ∧
    _format_num (Rat.normalize (-3) 2) = "-1.5" ∧
    build_loudnorm_pass2_filter ⟨-(16 : Rat), none, none⟩ sampleMeas =
      "loudnorm=" ++
        "I=-16:measured_I=-20.2:measured_TP=-3.1:measured_LRA=7.4:measured_thresh=-30.2:offset=3.8" := by
  refine ⟨?_, ?_, ?_, ?_⟩
  · intro t t' m m' ht hm
    rw [ht, hm]
  · decide
  · decide
  · decide

/-- Claim C9 witness: the purity conjunct applied at concrete equal
arguments. -/
theorem c9_witness :
    build_loudnorm_pass2_filter ⟨-(16 : Rat), none, none⟩ sampleMeas =
      build_loudnorm_pass2_filter ⟨-(16 : Rat), none, none⟩ sampleMeas :=
  c9_pass2_filter_rendering.1 _ _ _ _ rfl rfl

theorem foldl_pick_last (l : List (List Char)) (init : Option JObj) :
    l.foldl (fun acc blob =>
      match loudnormCandidate blob with
      | some o => some o
      | none => acc) init =
    match (l.filterMap loudnormCandidate).getLast? with
    | some o => some o
    | none => init := by
  induction l generalizing init with
  | nil => rfl
  | cons x xs ih =>
    rw [List.foldl_cons, ih]
    cases hx : loudnormCandidate x with
    | none => simp [List.filterMap_cons, hx]
    | some o =>
      simp only [List.filterMap_cons, hx]
      cases hxs : xs.filterMap loudnormCandidate with
      | nil => simp
      | cons y ys =>
        rw [List.getLast?_cons_cons, List.getLast?_eq_getLast (y :: ys) (by simp)]

/-- Claim C4: `_parse_loudnorm_json` returns the LAST brace block that
parses as a JSON object containing all four required measurement keys
(`input_i`, `input_tp`, `input_lra`, `input_thresh`); on a text with two
qualifying blocks the second is returned; with no qualifying block it is a
parse failure. -/
theorem c4_parse_loudnorm_selects_last :
    (∀ text : String, _parse_loudnorm_json text =
      match (qualifyingBlocks text).getLast? with
      | some o => Except.ok o
      | none => Except.error "Could not locate loudnorm JSON output in ffmpeg stderr") ∧
    (qualifyingBlocks twoBlockText).length = 2 ∧
    _parse_loudnorm_json twoBlockText = .ok twoBlockSecond ∧
    _parse_loudnorm_json "stderr text without any structured block" =
      .error "Could not locate loudnorm JSON output in ffmpeg stderr" := by
  refine ⟨?_, ?_, ?_, ?_⟩
  · intro text
    simp only [_parse_loudnorm_json, qualifyingBlocks]
    rw [foldl_pick_last]
    cases ((findBlocks text.toList).filterMap loudnormCandidate).getLast? <;> rfl
  · decide
  · decide
  · decide

/-- Claim C7: measurement extraction succeeds exactly when all five fields
(the four measurements plus the target offset) convert to finite numbers;
otherwise it raises a single failure whose message names every invalid
field (in the fixed field order). -/
theorem c7_measurement_validation :
    ∀ obj : JObj,
      ((∃ m, _extract_measurements obj = .ok m) ↔
        (_is_finite_number (jGet obj "input_i") = true ∧
         _is_finite_number (jGet obj "input_tp") = true ∧
         _is_finite_number (jGet obj "input_lra") = true ∧
         _is_finite_number (jGet obj "input_thresh") = true ∧
         _is_finite_number (jGet obj "target_offset") = true)) ∧
      (¬ (_is_finite_number (jGet obj "input_i") = true ∧
          _is_finite_number (jGet obj "input_tp") = true ∧
          _is_finite_number (jGet obj "input_lra") = true ∧
          _is_finite_number (jGet obj "input_thresh") = true ∧
          _is_finite_number (jGet obj "target_offset") = true) →
        _extract_measurements obj =
          .error ("Invalid loudnorm measurement values: " ++ String.intercalate ", "
            (([("measured_I", jGet obj "input_i"), ("measured_TP", jGet obj "input_tp"),
               ("measured_LRA", jGet obj "input_lra"),
               ("measured_thresh", jGet obj "input_thresh"),
               ("offset", jGet obj "target_offset")].filter
                (fun p => !(_is_finite_number p.2))).map Prod.fst))) := by
  intro obj
  cases h1 : _is_finite_number (jGet obj "input_i") <;>
    cases h2 : _is_finite_number (jGet obj "input_tp") <;>
      cases h3 : _is_finite_number (jGet obj "input_lra") <;>
        cases h4 : _is_finite_number (jGet obj "input_thresh") <;>
          cases h5 : _is_finite_number (jGet obj "target_offset") <;>
            simp [_extract_measurements, h1, h2, h3, h4, h5, List.filter]

/-- Claim C7 witness: an object whose only key is a non-numeric `input_i`
fails naming all five fields. -/
theorem c7_witness :
    _extract_measurements [("input_i", Jv.jstr "not-a-number")] =
      .error ("Invalid loudnorm measurement values: " ++ String.intercalate ", "
        (([("measured_I", jGet [("input_i", Jv.jstr "not-a-number")] "input_i"),
           ("measured_TP", jGet [("input_i", Jv.jstr "not-a-number")] "input_tp"),
           ("measured_LRA", jGet [("input_i", Jv.jstr "not-a-number")] "input_lra"),
           ("measured_thresh", jGet [("input_i", Jv.jstr "not-a-number")] "input_thresh"),
           ("offset", jGet [("input_i", Jv.jstr "not-a-number")] "target_offset")].filter
            (fun p => !(_is_finite_number p.2))).map Prod.fst)) :=
  (c7_measurement_validation [("input_i", Jv.jstr "not-a-number")]).2 (by decide)

theorem ensure_int_ok_iff (n : String) (v lo hi : Int) :
    _ensure_int_in_range n v lo hi = .ok () ↔ lo ≤ v ∧ v ≤ hi := by
  unfold _ensure_int_in_range
  split
  · next h => simp only [reduceCtorEq, false_iff]; omega
  · next h => simp only [true_iff]; omega

theorem ensure_float_ok_iff (n : String) (v lo hi : Rat) :
    _ensure_float_in_range n v lo hi = .ok () ↔ lo ≤ v ∧ v ≤ hi := by
  unfold _ensure_float_in_range
  split
  · next h =>
    simp only [reduceCtorEq, false_iff]
    rintro ⟨hl, hr⟩
    rcases h with h | h
    · exact absurd hl (not_le.mpr h)
    · exact absurd hr (not_le.mpr h)
  · next h =>
    simp only [true_iff]
    push_neg at h
    exact h

theorem force_ext_ok_iff (p : String) (exts : List String) :
    _audio_force_extension p exts = .ok () ↔
      lstripDots (strLower (pathSuffix p)) ∈ exts := by
  simp only [_audio_force_extension]
  split
  · next h =>
    simp only [reduceCtorEq, false_iff]
    simpa using h
  · next h =>
    simp only [true_iff]
    simpa using h

theorem mp3_build_ok_iff (i o : String) (cfg : TranscoderConfig) (sc : Bool) :
    (∃ cmd, MP3AudioHandler.build_encode_command i o cfg sc = .ok cmd) ↔
      (MP3AudioHandler.validate_config cfg = .ok () ∧
       _audio_force_extension o MP3AudioHandler.container_extensions = .ok ()) := by
  simp only [MP3AudioHandler.build_encode_command]
  cases hv : MP3AudioHandler.validate_config cfg with
  | error e => simp
  | ok u =>
    cases u
    cases he : _audio_force_extension o MP3AudioHandler.container_extensions with
    | error e => simp
    | ok u2 => cases u2; simp

theorem vorbis_build_ok_iff (i o : String) (cfg : TranscoderConfig) (sc : Bool) :
    (∃ cmd, VorbisAudioHandler.build_encode_command i o cfg sc = .ok cmd) ↔
      (VorbisAudioHandler.validate_config cfg = .ok () ∧
       _audio_force_extension o VorbisAudioHandler.container_extensions = .ok ()) := by
  simp only [VorbisAudioHandler.build_encode_command]
  cases hv : VorbisAudioHandler.validate_config cfg with
  | error e => simp
  | ok u =>
    cases u
    cases he : _audio_force_extension o VorbisAudioHandler.container_extensions with
    | error e => simp
    | ok u2 => cases u2; simp

theorem aac_build_ok_iff (i o : String) (cfg : TranscoderConfig) (sc : Bool) :
    (∃ cmd, AACAudioHandler.build_encode_command i o cfg sc = .ok cmd) ↔
      (AACAudioHandler.validate_config cfg = .ok () ∧
       _audio_force_extension o ["m4a", "mp4"] = .ok ()) := by
  simp only [AACAudioHandler.build_encode_command]
  cases hv : AACAudioHandler.validate_config cfg with
  | error e => simp
  | ok u =>
    cases u
    cases he : _audio_force_extension o ["m4a", "mp4"] with
    | error e => simp
    | ok u2 => cases u2; simp

theorem opus_build_ok_iff (i o : String) (cfg : TranscoderConfig) (sc : Bool) :
    (∃ cmd, OpusAudioHandler.build_encode_command i o cfg sc = .ok cmd) ↔
      (OpusAudioHandler.validate_config cfg = .ok () ∧
       _audio_force_extension o OpusAudioHandler.container_extensions = .ok ()) := by
  simp only [OpusAudioHandler.build_encode_command]
  cases hv : OpusAudioHandler.validate_config cfg with
  | error e => simp
  | ok u =>
    cases u
    cases he : _audio_force_extension o OpusAudioHandler.container_extensions with
    | error e => simp
    | ok u2 => cases u2; simp

/-- Claim C8: each audio-only variant yields a configuration error (and no
command tokens) exactly unless its numeric parameter is in range — MP3
quality in [0,9], Vorbis quality in [-1,10], AAC VBR mode in [1,5], Opus
bitrate in [6,510] — and the output extension is in the variant's accepted
set; in particular an Opus bitrate of 600 kbps raises before any command is
built. -/
theorem c8_audio_validation :
    (∀ (cfg : TranscoderConfig) (i o : String) (sc : Bool),
      ((∃ cmd, MP3AudioHandler.build_encode_command i o cfg sc = .ok cmd) ↔
        (0 ≤ cfg.audio.mp3_quality ∧ cfg.audio.mp3_quality ≤ 9 ∧
         lstripDots (strLower (pathSuffix o)) ∈ ["mp3"])) ∧
      ((∃ cmd, VorbisAudioHandler.build_encode_command i o cfg sc = .ok cmd) ↔
        (-1 ≤ cfg.audio.vorbis_quality ∧ cfg.audio.vorbis_quality ≤ 10 ∧
         lstripDots (strLower (pathSuffix o)) ∈ ["ogg"])) ∧
      ((∃ cmd, AACAudioHandler.build_encode_command i o cfg sc = .ok cmd) ↔
        (1 ≤ cfg.audio.aac_vbr_mode ∧ cfg.audio.aac_vbr_mode ≤ 5 ∧
         lstripDots (strLower (pathSuffix o)) ∈ ["m4a", "mp4"])) ∧
      ((∃ cmd, OpusAudioHandler.build_encode_command i o cfg sc = .ok cmd) ↔
        (6 ≤ cfg.audio.opus_bitrate_kbps ∧ cfg.audio.opus_bitrate_kbps ≤ 510 ∧
         lstripDots (strLower (pathSuffix o)) ∈ ["opus"]))) ∧
    OpusAudioHandler.build_encode_command "in.wav" "out.opus" cfgOpus600 false =
      .error "opus_bitrate_kbps must be between 6 and 510 (got 600)" := by
  constructor
  · intro cfg i o sc
    refine ⟨?_, ?_, ?_, ?_⟩
    · rw [mp3_build_ok_iff]
      unfold MP3AudioHandler.validate_config
      rw [ensure_int_ok_iff, force_ext_ok_iff]
      tauto
    · rw [vorbis_build_ok_iff]
      unfold VorbisAudioHandler.validate_config
      rw [ensure_float_ok_iff, force_ext_ok_iff]
      tauto
    · rw [aac_build_ok_iff]
      unfold AACAudioHandler.validate_config
      rw [ensure_int_ok_iff, force_ext_ok_iff]
      tauto
    · rw [opus_build_ok_iff]
      unfold OpusAudioHandler.validate_config
      rw [ensure_int_ok_iff, force_ext_ok_iff]
      tauto
  · decide

/-- Claim C5: for every video builder the final token of the produced
command is the output path, and for every audio builder every successfully
produced command has the output path as its final token. -/
theorem c5_last_token_is_output :
    (∀ (i o : String) (vi : VideoInfo) (cfg : TranscoderConfig) (accel : Option Accel)
        (he hd : Bool),
      (H264Handler.build_encode_command i o vi cfg accel he hd).getLast? = some o ∧
      (VP8Handler.build_encode_command i o vi cfg accel he hd).getLast? = some o ∧
      (HEVCHandler.build_encode_command i o vi cfg accel he hd).getLast? = some o ∧
      (VP9Handler.build_encode_command i o vi cfg accel he hd).getLast? = some o ∧
      (∀ chk : String → Bool,
        (AV1Handler.build_encode_command chk i o vi cfg accel he hd).getLast? = some o)) ∧
    (∀ (i o : String) (cfg : TranscoderConfig) (sc : Bool) (cmd : List String),
      (MP3AudioHandler.build_encode_command i o cfg sc = .ok cmd → cmd.getLast? = some o) ∧
      (VorbisAudioHandler.build_encode_command i o cfg sc = .ok cmd → cmd.getLast? = some o) ∧
      (AACAudioHandler.build_encode_command i o cfg sc = .ok cmd → cmd.getLast? = some o) ∧
      (OpusAudioHandler.build_encode_command i o cfg sc = .ok cmd → cmd.getLast? = some o)) := by
  constructor
  · intro i o vi cfg accel he hd
    refine ⟨?_, ?_, ?_, ?_, fun chk => ?_⟩ <;>
      first
        | (simp only [H264Handler.build_encode_command]; exact List.getLast?_concat _)
        | (simp only [VP8Handler.build_encode_command]; exact List.getLast?_concat _)
        | (simp only [HEVCHandler.build_encode_command]; exact List.getLast?_concat _)
        | (simp only [VP9Handler.build_encode_command]; exact List.getLast?_concat _)
        | (simp only [AV1Handler.build_encode_command]; exact List.getLast?_concat _)
  · intro i o cfg sc cmd
    refine ⟨?_, ?_, ?_, ?_⟩
    · simp only [MP3AudioHandler.build_encode_command]
      split
      · intro h; exact absurd h (by simp)
      · split
        · intro h; exact absurd h (by simp)
        · intro h
          obtain rfl : _ = cmd := Except.ok.inj h
          exact List.getLast?_concat _
    · simp only [VorbisAudioHandler.build_encode_command]
      split
      · intro h; exact absurd h (by simp)
      · split
        · intro h; exact absurd h (by simp)
        · intro h
          obtain rfl : _ = cmd := Except.ok.inj h
          exact List.getLast?_concat _
    · simp only [AACAudioHandler.build_encode_command]
      split
      · intro h; exact absurd h (by simp)
      · split
        · intro h; exact absurd h (by simp)
        · intro h
          obtain rfl : _ = cmd := Except.ok.inj h
          exact List.getLast?_concat _
    · simp only [OpusAudioHandler.build_encode_command]
      split
      · intro h; exact absurd h (by simp)
      · split
        · intro h; exact absurd h (by simp)
        · intro h
          obtain rfl : _ = cmd := Except.ok.inj h
          exact List.getLast?_concat _

/-- Claim C5 witness: the audio conjunct applied at a concrete successful
MP3 build. -/
theorem c5_witness :
    (MP3AudioHandler.build_encode_command "in.wav" "out.mp3" sampleCfg false =
      .ok ["ffmpeg", "-y", "-hide_banner", "-i", "in.wav", "-map", "0:a:0?", "-vn", "-sn",
           "-dn", "-c:a", "libmp3lame", "-q:a", "5", "out.mp3"]) ∧
    (["ffmpeg", "-y", "-hide_banner", "-i", "in.wav", "-map", "0:a:0?", "-vn", "-sn",
      "-dn", "-c:a", "libmp3lame", "-q:a", "5", "out.mp3"] : List String).getLast? =
      some "out.mp3" := by
  have hb : MP3AudioHandler.build_encode_command "in.wav" "out.mp3" sampleCfg false =
      .ok ["ffmpeg", "-y", "-hide_banner", "-i", "in.wav", "-map", "0:a:0?", "-vn", "-sn",
           "-dn", "-c:a", "libmp3lame", "-q:a", "5", "out.mp3"] := by decide
  exact ⟨hb, ((c5_last_token_is_output.2 "in.wav" "out.mp3" sampleCfg false _).1 hb)⟩

/-- Claim C1: every codec variant's `build_encode_command` is a pure,
deterministic function of its arguments — two invocations with identical
input path, output path, stream descriptor, config, hardware context and
hardware-enable flags (and, for AV1, the same snapshot of the
encoder-availability probe, which the spec requires to be deterministic)
produce identical token sequences; likewise audio variants with identical
input, output, config and stream-copy flag. -/
theorem c1_builders_deterministic :
    ∀ (chk chk' : String → Bool) (i i' o o' : String) (vi vi' : VideoInfo)
      (cfg cfg' : TranscoderConfig) (accel accel' : Option Accel)
      (he he' hd hd' sc sc' : Bool),
      chk = chk' → i = i' → o = o' → vi = vi' → cfg = cfg' → accel = accel' →
      he = he' → hd = hd' → sc = sc' →
      (H264Handler.build_encode_command i o vi cfg accel he hd =
        H264Handler.build_encode_command i' o' vi' cfg' accel' he' hd') ∧
      (VP8Handler.build_encode_command i o vi cfg accel he hd =
        VP8Handler.build_encode_command i' o' vi' cfg' accel' he' hd') ∧
      (HEVCHandler.build_encode_command i o vi cfg accel he hd =
        HEVCHandler.build_encode_command i' o' vi' cfg' accel' he' hd') ∧
      (VP9Handler.build_encode_command i o vi cfg accel he hd =
        VP9Handler.build_encode_command i' o' vi' cfg' accel' he' hd') ∧
      (AV1Handler.build_encode_command chk i o vi cfg accel he hd =
        AV1Handler.build_encode_command chk' i' o' vi' cfg' accel' he' hd') ∧
      (MP3AudioHandler.build_encode_command i o cfg sc =
        MP3AudioHandler.build_encode_command i' o' cfg' sc') ∧
      (VorbisAudioHandler.build_encode_command i o cfg sc =
        VorbisAudioHandler.build_encode_command i' o' cfg' sc') ∧
      (AACAudioHandler.build_encode_command i o cfg sc =
        AACAudioHandler.build_encode_command i' o' cfg' sc') ∧
      (OpusAudioHandler.build_encode_command i o cfg sc =
        OpusAudioHandler.build_encode_command i' o' cfg' sc') := by
  intro chk chk' i i' o o' vi vi' cfg cfg' accel accel' he he' hd hd' sc sc'
  intro hchk hi ho hvi hcfg haccel hhe hhd hsc
  subst hchk hi ho hvi hcfg haccel hhe hhd hsc
  exact ⟨rfl, rfl, rfl, rfl, rfl, rfl, rfl, rfl, rfl⟩

/-- Claim C1 witness: the H.264 and AV1 conjuncts instantiated at concrete
equal argument lists. -/
theorem c1_witness :
    H264Handler.build_encode_command "in.mkv" "out.mp4" sampleVi sampleCfg none false false =
      H264Handler.build_encode_command "in.mkv" "out.mp4" sampleVi sampleCfg none false false ∧
    AV1Handler.build_encode_command (fun _ => false) "in.mkv" "out.mkv" sampleVi sampleCfg
        none false false =
      AV1Handler.build_encode_command (fun _ => false) "in.mkv" "out.mkv" sampleVi sampleCfg
        none false false := by
  have h := c1_builders_deterministic (fun _ => false) (fun _ => false) "in.mkv" "in.mkv"
    "out.mp4" "out.mp4" sampleVi sampleVi sampleCfg sampleCfg none none false false false
    false false false rfl rfl rfl rfl rfl rfl rfl rfl rfl
  have h2 := c1_builders_deterministic (fun _ => false) (fun _ => false) "in.mkv" "in.mkv"
    "out.mkv" "out.mkv" sampleVi sampleVi sampleCfg sampleCfg none none false false false
    false false false rfl rfl rfl rfl rfl rfl rfl rfl rfl
  exact ⟨h.1, h2.2.2.2.2.1⟩

/-- Claim C3: the orchestrator returns the original command unchanged (and,
being a total function, raises nothing) whenever normalization is disabled,
stream copy was requested, the method is unrecognized, or pass-1 analysis
fails; only the successful loudnorm path (from precomputed or freshly
analyzed measurements) and the replaygain path return a command with a
filter injected. -/
theorem c3_orchestrator_degradation :
    ∀ (base : List String) (cfg : TranscoderConfig) (sc : Bool)
      (pre : Option LoudnormMeasurements)
      (analyze : LoudnormTargets → Int → Except String LoudnormMeasurements),
      (cfg.audio.audio_normalization_enabled = false →
        maybe_apply_audio_normalization base cfg sc pre analyze = base) ∧
      (sc = true → maybe_apply_audio_normalization base cfg sc pre analyze = base) ∧
      (cfg.audio.audio_normalization_method ≠ "loudnorm" →
        cfg.audio.audio_normalization_method ≠ "replaygain" →
        maybe_apply_audio_normalization base cfg sc pre analyze = base) ∧
      (∀ e, cfg.audio.audio_normalization_method = "loudnorm" → pre = none →
        analyze (loudnormTargetsOf cfg) (min cfg.general.timeout_seconds 300) = .error e →
        maybe_apply_audio_normalization base cfg sc pre analyze = base) ∧
      (∀ m, cfg.audio.audio_normalization_enabled = true → sc = false →
        cfg.audio.audio_normalization_method = "loudnorm" →
        (pre = some m ∨ (pre = none ∧
          analyze (loudnormTargetsOf cfg) (min cfg.general.timeout_seconds 300) = .ok m)) →
        maybe_apply_audio_normalization base cfg sc pre analyze =
          inject_audio_filter base
            (build_loudnorm_pass2_filter (loudnormTargetsOf cfg) m)) ∧
      (cfg.audio.audio_normalization_enabled = true → sc = false →
        cfg.audio.audio_normalization_method = "replaygain" →
        maybe_apply_audio_normalization base cfg sc pre analyze =
          inject_audio_filter base build_replaygain_filter) := by
  intro base cfg sc pre analyze
  refine ⟨?_, ?_, ?_, ?_, ?_, ?_⟩
  · intro h
    simp [maybe_apply_audio_normalization, h]
  · intro h
    subst h
    simp [maybe_apply_audio_normalization]
  · intro h1 h2
    simp [maybe_apply_audio_normalization, h1, h2]
  · intro e hm hpre ha
    subst hpre
    simp [maybe_apply_audio_normalization, hm, ha]
  · intro m hen hsc hm hsrc
    subst hsc
    rcases hsrc with hp | ⟨hp, ha⟩ <;> subst hp
    · simp [maybe_apply_audio_normalization, hen, hm]
    · simp [maybe_apply_audio_normalization, hen, hm, ha]
  · intro hen hsc hm
    subst hsc
    simp [maybe_apply_audio_normalization, hen, hm]

/-- Claim C3 witness: with normalization enabled, loudnorm method and a
failing analysis, the concrete base command comes back unchanged; with
precomputed measurements it comes back with the pass-2 filter injected. -/
theorem c3_witness :
    maybe_apply_audio_normalization ["ffmpeg", "-i", "x", "out.mp3"] sampleCfg false none
      (fun _ _ => .error "ffmpeg loudnorm pass 1 failed (code 1): boom") =
      ["ffmpeg", "-i", "x", "out.mp3"] ∧
    maybe_apply_audio_normalization ["ffmpeg", "-i", "x", "out.mp3"] sampleCfg false
      (some sampleMeas) (fun _ _ => .error "unused") =
      inject_audio_filter ["ffmpeg", "-i", "x", "out.mp3"]
        (build_loudnorm_pass2_filter (loudnormTargetsOf sampleCfg) sampleMeas) := by
  constructor
  · exact (c3_orchestrator_degradation ["ffmpeg", "-i", "x", "out.mp3"] sampleCfg false none
      (fun _ _ => .error "ffmpeg loudnorm pass 1 failed (code 1): boom")).2.2.2.1
      "ffmpeg loudnorm pass 1 failed (code 1): boom" rfl rfl rfl
  · exact (c3_orchestrator_degradation ["ffmpeg", "-i", "x", "out.mp3"] sampleCfg false
      (some sampleMeas) (fun _ _ => .error "unused")).2.2.2.2.1 sampleMeas rfl rfl rfl
      (Or.inl rfl)

/-- Claim C10: when no precomputed measurements are supplied, the
orchestrator consults pass-1 analysis only at the timeout
`min(cfg.general.timeout_seconds, 300)` — two analyzers that agree at that
timeout produce identical orchestration results — and that analysis timeout
never exceeds 300 seconds. -/
theorem c10_analysis_timeout_capped :
    ∀ (base : List String) (cfg : TranscoderConfig) (sc : Bool)
      (analyze₁ analyze₂ : LoudnormTargets → Int → Except String LoudnormMeasurements),
      ((∀ tg, analyze₁ tg (min cfg.general.timeout_seconds 300) =
              analyze₂ tg (min cfg.general.timeout_seconds 300)) →
        maybe_apply_audio_normalization base cfg sc none analyze₁ =
          maybe_apply_audio_normalization base cfg sc none analyze₂) ∧
      min cfg.general.timeout_seconds 300 ≤ 300 := by
  intro base cfg sc analyze₁ analyze₂
  constructor
  · intro hagree
    simp only [maybe_apply_audio_normalization]
    split
    · rfl
    · split
      · rfl
      · split
        · rw [hagree]
        · rfl
  · exact min_le_right _ _

/-- Claim C10 witness: two analyzers that agree at min(600, 300) = 300 but
differ at 600 give the same result on `sampleCfg` (whose configured timeout
is 600), and the cap evaluates to at most 300. -/
theorem c10_witness :
    maybe_apply_audio_normalization ["ffmpeg", "-i", "x", "out.mp3"] sampleCfg false none
        (fun _ _ => .error "a") =
      maybe_apply_audio_normalization ["ffmpeg", "-i", "x", "out.mp3"] sampleCfg false none
        (fun _ t => if t = 300 then .error "a" else .ok sampleMeas) ∧
    min sampleCfg.general.timeout_seconds 300 ≤ 300 := by
  have h := c10_analysis_timeout_capped ["ffmpeg", "-i", "x", "out.mp3"] sampleCfg false
    (fun _ _ => .error "a") (fun _ t => if t = 300 then .error "a" else .ok sampleMeas)
  exact ⟨h.1 (fun tg => by decide), h.2⟩

theorem runLoop_timeout_of_line (T : Int) (d : Bool) (pre : List AnalysisEvent) :
    ∀ (s : String) (t : Rat) (rest : List AnalysisEvent) (acc : List String),
      (∀ e ∈ pre, nonTriggering T e = true) → (T : Rat) < t →
      runLoop T d (pre ++ .line s t :: rest) acc =
        .timedOut (killSequence d) (acc ++ collectLines pre ++ [s]) := by
  induction pre with
  | nil =>
    intro s t rest acc _ ht
    simp only [List.nil_append, runLoop, collectLines, List.append_nil]
    rw [if_pos ht]
  | cons e es ih =>
    intro s t rest acc hpre ht
    cases e with
    | line s' t' =>
      have hns : nonTriggering T (.line s' t') = true := hpre _ (by simp)
      have hle : ¬ ((T : Rat) < t') := of_decide_eq_true hns
      simp only [List.cons_append, runLoop, List.append_eq]
      rw [if_neg hle, ih s t rest (acc ++ [s']) (fun e he => hpre e (by simp [he])) ht]
      simp [collectLines]
    | eofAlive t' =>
      simp only [List.cons_append, runLoop, List.append_eq]
      rw [ih s t rest acc (fun e he => hpre e (by simp [he])) ht]
      simp [collectLines]
    | exited code =>
      have := hpre (.exited code) (by simp)
      simp [nonTriggering] at this

theorem runLoop_exit_of_quiet (T : Int) (d : Bool) (pre : List AnalysisEvent) :
    ∀ (code : Int) (acc : List String),
      (∀ e ∈ pre, nonTriggering T e = true) →
      runLoop T d (pre ++ [.exited code]) acc = .exited code (acc ++ collectLines pre) := by
  induction pre with
  | nil =>
    intro code acc _
    simp [runLoop, collectLines]
  | cons e es ih =>
    intro code acc hpre
    cases e with
    | line s' t' =>
      have hns : nonTriggering T (.line s' t') = true := hpre _ (by simp)
      have hle : ¬ ((T : Rat) < t') := of_decide_eq_true hns
      simp only [List.cons_append, runLoop, List.append_eq]
      rw [if_neg hle, ih code (acc ++ [s']) (fun e he => hpre e (by simp [he]))]
      simp [collectLines]
    | eofAlive t' =>
      simp only [List.cons_append, runLoop, List.append_eq]
      rw [ih code acc (fun e he => hpre e (by simp [he]))]
      simp [collectLines]
    | exited code' =>
      have := hpre (.exited code') (by simp)
      simp [nonTriggering] at this

/-- Claim C2 (amended): during pass-1 analysis, elapsed wall-clock time is
checked on every NON-EMPTY diagnostic line received; once such a line
arrives after elapsed time exceeds the bound, the process is asked to
terminate, given up to 5 seconds, then forcibly killed if still alive, and
a timeout failure is raised.  But if the external process stops emitting
output before exiting, NO further timeout check occurs: empty reads perform
no check, and when the process then exits the run completes without any
timeout being raised, no matter how far the elapsed time exceeded the
bound. -/
theorem c2_timeout_checked_on_lines_only :
    (∀ (T : Int) (d : Bool) (pre : List AnalysisEvent) (s : String) (t : Rat)
        (rest : List AnalysisEvent) (acc : List String),
      (∀ e ∈ pre, nonTriggering T e = true) → (T : Rat) < t →
      runLoop T d (pre ++ .line s t :: rest) acc =
        .timedOut (killSequence d) (acc ++ collectLines pre ++ [s])) ∧
    (∀ (T : Int) (d : Bool) (pre : List AnalysisEvent) (s : String) (t : Rat)
        (rest : List AnalysisEvent),
      (∀ e ∈ pre, nonTriggering T e = true) → (T : Rat) < t →
      analyze_loudnorm_two_pass T d (pre ++ .line s t :: rest) =
        .error ("ffmpeg loudnorm pass 1 timeout after " ++ toString T ++ "s")) ∧
    (∀ (T : Int) (d : Bool) (pre : List AnalysisEvent) (code : Int),
      (∀ e ∈ pre, nonTriggering T e = true) →
      runLoop T d (pre ++ [.exited code]) [] = .exited code (collectLines pre)) := by
  refine ⟨fun T d pre => runLoop_timeout_of_line T d pre, ?_, ?_⟩
  · intro T d pre s t rest hpre ht
    unfold analyze_loudnorm_two_pass
    rw [runLoop_timeout_of_line T d pre s t rest [] hpre ht]
  · intro T d pre code hpre
    rw [runLoop_exit_of_quiet T d pre code [] hpre]
    simp

/-- Claim C2 witness: with a 10-second bound, an in-bound line at 1s and an
empty read at 3s are quiet; the line arriving at 11s fires the timeout and
the timeout failure is raised; and a trace that goes silent at 99s and then
exits completes normally. -/
theorem c2_witness :
    runLoop 10 false
        ([AnalysisEvent.line "frame=1" 1, AnalysisEvent.eofAlive 3] ++
          AnalysisEvent.line "frame=2" 11 :: []) [] =
      .timedOut (killSequence false)
        ([] ++ collectLines [AnalysisEvent.line "frame=1" 1, AnalysisEvent.eofAlive 3] ++
          ["frame=2"]) ∧
    analyze_loudnorm_two_pass 10 false
        ([AnalysisEvent.line "frame=1" 1, AnalysisEvent.eofAlive 3] ++
          AnalysisEvent.line "frame=2" 11 :: []) =
      .error ("ffmpeg loudnorm pass 1 timeout after " ++ toString (10 : Int) ++ "s") ∧
    runLoop 10 false ([AnalysisEvent.eofAlive 99] ++ [AnalysisEvent.exited 0]) [] =
      .exited 0 (collectLines [AnalysisEvent.eofAlive 99]) :=
  ⟨c2_timeout_checked_on_lines_only.1 10 false
      [AnalysisEvent.line "frame=1" 1, AnalysisEvent.eofAlive 3] "frame=2" 11 [] []
      (by decide) (by decide),
   c2_timeout_checked_on_lines_only.2.1 10 false
      [AnalysisEvent.line "frame=1" 1, AnalysisEvent.eofAlive 3] "frame=2" 11 []
      (by decide) (by decide),
   c2_timeout_checked_on_lines_only.2.2 10 false [AnalysisEvent.eofAlive 99] 0 (by decide)⟩

/-- Claim C2 counterexample: with a 10-second bound, a process that stops
emitting output (an empty read at elapsed 50 seconds, well past the bound)
and then exits is NOT timed out: the loop breaks normally, no
terminate/kill happens, and analysis proceeds to (here, failed) parsing
instead of raising the timeout failure — refuting "the timeout still fires
at the next check opportunity once elapsed time is exceeded" when the
process stops emitting output. -/
theorem c2_counterexample :
    runLoop 10 true [AnalysisEvent.eofAlive 50, AnalysisEvent.exited 0] [] =
      .exited 0 [] ∧
    analyze_loudnorm_two_pass 10 true [AnalysisEvent.eofAlive 50, AnalysisEvent.exited 0] =
      .error "Could not locate loudnorm JSON output in ffmpeg stderr" ∧
    analyze_loudnorm_two_pass 10 true [AnalysisEvent.eofAlive 50, AnalysisEvent.exited 0] ≠
      .error ("ffmpeg loudnorm pass 1 timeout after " ++ toString (10 : Int) ++ "s") := by
  refine ⟨?_, ?_, ?_⟩ <;> decide

end Transcoder
